import Mathlib

/-!
Verification of the dictionary-loading core of the `hyphenation` crate
(`src/load.rs`): a shallow embedding of the `Load` trait methods
(`from_path`, `from_reader`, `any_from_reader`, `from_embedded`),
`retrieve_resource`, the `Error` taxonomy and its `From` conversions,
with theorems settling the specified loading and validation properties.

Byte sources (readers, files, embedded slices) are modelled as `List Nat`
of bytes.  The external binary codec (`bincode`) and the process
environment (file system, compiled-in resource table) are opaque external
collaborators of this core, so they enter the embedding as explicit
function parameters; concrete instances of them appear further down only
to witness the theorems on closed inputs.
-/

namespace Hyphenation

/-- Modelled from the spec: `Language` (defined in `hyphenation_commons`,
outside `src/`) is an enumerated locale identifier, immutable, copyable and
comparable for equality, with a stable short code.  A representative subset
of its values suffices for the loading core, which only compares languages
and reads their short code. -/
inductive Language
  | EnglishUS
  | French
  | Afrikaans
deriving DecidableEq

/-- Modelled from the spec: `Language::code` (from `hyphenation_commons`,
outside `src/`), the stable short code used to build resource names. -/
def Language.code : Language → String
  | .EnglishUS => "en-us"
  | .French => "fr"
  | .Afrikaans => "af"

/-- A hyphenation dictionary record.  The `Standard` and `Extended`
dictionaries of `hyphenation_commons` differ only in the richness of their
pattern payload, abstracted here as `α`; the loading core inspects only the
`language` field (`dict.language` in `from_reader`). -/
structure Dict (α : Type) where
  language : Language
  patterns : α
deriving DecidableEq

/-- Errors of the external binary codec (`bincode`), opaque to the loader;
`SizeLimit` is the error the codec raises when a configured size ceiling
would be exceeded, `InvalidEncoding` stands for every other decode failure
(truncated, corrupted, wrong schema). -/
inductive BinError
  | SizeLimit
  | InvalidEncoding
deriving DecidableEq

/-- Errors from opening or reading a byte source (`std::io::Error`), opaque
to the loader, which only wraps them. -/
inductive IoError
  | NotFound
  | PermissionDenied
deriving DecidableEq

/-- The error taxonomy of `load.rs` (`enum Error`): `Deserialization` wraps
a codec error, `Io` wraps an I/O error (the variant written `Error::IO` in
the source), `LanguageMismatch` carries the requested (`expected`) and
decoded (`found`) languages, and `Resource` carries no further detail. -/
inductive Error
  | Deserialization (e : BinError)
  | Io (e : IoError)
  | LanguageMismatch (expected found : Language)
  | Resource
deriving DecidableEq

/-- Model of `bin::config().limit(limit).deserialize_from(reader)`: the
codec itself is the opaque parameter `decode`; per bincode's documented
`limit` option, the configured ceiling makes the codec fail with
`SizeLimit` rather than consume input beyond `limit` bytes, rendered here
as a length bound on the input. -/
def deserialize_from {α : Type} (limit : Nat)
    (decode : List Nat → Except BinError (Dict α)) (bytes : List Nat) :
    Except BinError (Dict α) :=
  if limit < bytes.length then .error .SizeLimit else decode bytes

/-- Embedding of `Load::from_reader` (load.rs lines 104-111): decode from
the stream with a 5,000,000-byte ceiling, lifting codec failure to
`Deserialization` through `From<bin::Error> for Error`, then compare the
decoded language tag (`found`) against the requested one (`expected`). -/
def Load.from_reader {α : Type} (decode : List Nat → Except BinError (Dict α))
    (lang : Language) (bytes : List Nat) : Except Error (Dict α) :=
  match deserialize_from 5000000 decode bytes with
  | .error e => .error (.Deserialization e)
  | .ok dict =>
      let found := dict.language
      let expected := lang
      if found ≠ expected then .error (.LanguageMismatch expected found)
      else .ok dict

/-- Embedding of `Load::any_from_reader` (load.rs lines 113-117): decode
from the stream with the same 5,000,000-byte ceiling and return the record
as is, with no language check. -/
def Load.any_from_reader {α : Type}
    (decode : List Nat → Except BinError (Dict α)) (bytes : List Nat) :
    Except Error (Dict α) :=
  match deserialize_from 5000000 decode bytes with
  | .error e => .error (.Deserialization e)
  | .ok dict => .ok dict

/-- Embedding of `Load::from_path` (load.rs lines 80-84): the file system is
the parameter `fs`, standing for `File::open` followed by a full buffered
read; an open failure is lifted to `Io` through `From<io::Error> for Error`
(the `?` on `File::open`), and the file's bytes are handed to
`from_reader`.  The `BufReader` wrapper is pure plumbing and adds no
behaviour over the byte contents. -/
def Load.from_path {α : Type} (fs : String → Except IoError (List Nat))
    (decode : List Nat → Except BinError (Dict α)) (lang : Language)
    (path : String) : Except Error (Dict α) :=
  match fs path with
  | .error e => .error (.Io e)
  | .ok file => Load.from_reader decode lang file

/-- Embedding of `retrieve_resource` (load.rs lines 134-141).  The
compiled-in resource table (`ResourceId::from_name` plus `ResourceId::load`,
generated at build time, outside `src/`) is the parameter `table`, mapping
an exact resource name to its byte slice; the name is
`format!("{}.{}.bincode", code, suffix)`. -/
def retrieve_resource (table : String → Option (List Nat))
    (code suffix : String) : Except Error (List Nat) :=
  match table (code ++ "." ++ suffix ++ ".bincode") with
  | some data => .ok data
  | none => .error .Resource

/-- Embedding of `from_embedded` (load.rs lines 119-124): look up the
resource for the language's short code and the kind suffix, then decode the
byte slice with plain `bin::deserialize` (the bare codec, no configured
size ceiling); failures lift through the `From` conversions.  No language
validation is performed after decoding. -/
def Load.from_embedded {α : Type} (table : String → Option (List Nat))
    (decode : List Nat → Except BinError (Dict α)) (suffix : String)
    (lang : Language) : Except Error (Dict α) :=
  match retrieve_resource table lang.code suffix with
  | .error e => .error e
  | .ok dict_bytes =>
      match decode dict_bytes with
      | .error e => .error (.Deserialization e)
      | .ok dict => .ok dict

/-- Instantiation of `impl_load! { Standard, "standard" }` (load.rs line
129): only `from_embedded` depends on the macro's suffix argument, so the
`Standard` instance fixes the suffix to `"standard"`. -/
def Standard.from_embedded {α : Type} (table : String → Option (List Nat))
    (decode : List Nat → Except BinError (Dict α)) (lang : Language) :
    Except Error (Dict α) :=
  Load.from_embedded table decode "standard" lang

/-- Instantiation of `impl_load! { Extended, "extended" }` (load.rs line
130): the `Extended` instance fixes the suffix to `"extended"`. -/
def Extended.from_embedded {α : Type} (table : String → Option (List Nat))
    (decode : List Nat → Except BinError (Dict α)) (lang : Language) :
    Except Error (Dict α) :=
  Load.from_embedded table decode "extended" lang

/-- Specification-side Validator (spec section 4.3): `validate(expected,
found)` succeeds iff `expected == found`, otherwise fails with
`LanguageMismatch \x7b expected, found \x7d`. -/
def validate (expected found : Language) : Except Error Unit :=
  if expected = found then .ok () else .error (.LanguageMismatch expected found)

/-- Specification-side composition (spec section 4.1): `decode_checked`
performs `decode_any` — here `any_from_reader` — and then invokes the
Validator on the decoded record's language tag. -/
def decode_checked_spec {α : Type}
    (decode : List Nat → Except BinError (Dict α)) (lang : Language)
    (bytes : List Nat) : Except Error (Dict α) :=
  match Load.any_from_reader decode bytes with
  | .error e => .error e
  | .ok dict =>
      match validate lang dict.language with
      | .error e => .error e
      | .ok _ => .ok dict

/-- A concrete codec instance used to witness the theorems on closed
inputs: the first byte selects the language tag, the rest of the slice is
ignored, and an empty or unrecognised slice fails to decode. -/
def sampleDecode : List Nat → Except BinError (Dict Nat)
  | 0 :: _ => .ok ⟨.EnglishUS, 0⟩
  | 1 :: _ => .ok ⟨.French, 0⟩
  | _ => .error .InvalidEncoding

/-- A concrete file system for witnesses: one readable one-byte dictionary
file; every other path fails to open. -/
def sampleFs : String → Except IoError (List Nat) :=
  fun path =>
    if path = "/dictionaries/en-us.bincode" then .ok [0]
    else .error .NotFound

/-- A concrete, well-formed resource table for witnesses: the entry named
for US English decodes, under `sampleDecode`, to a US English dictionary. -/
def sampleTable : String → Option (List Nat) :=
  fun name => if name = "en-us.standard.bincode" then some [0] else none

/-- A corrupt resource table: the entry named for US English holds bytes
that decode, under `sampleDecode`, to a French dictionary. -/
def corruptTable : String → Option (List Nat) :=
  fun name => if name = "en-us.standard.bincode" then some [1] else none

/-- An input one byte beyond the 5,000,000-byte decode ceiling of the
stream-based entry points; its first byte makes `sampleDecode` accept it. -/
def bigBytes : List Nat := 0 :: List.replicate 5000000 0

/-- A resource table embedding the oversized payload under the name for US
English standard dictionaries. -/
def bigTable : String → Option (List Nat) :=
  fun name => if name = "en-us.standard.bincode" then some bigBytes else none

/-- Helper: whenever `from_reader` returns `Ok dict`, the decoded record's
language equals the requested one, because the branch at load.rs lines
108-110 errors on any disagreement. -/
theorem from_reader_ok_language {α : Type}
    (decode : List Nat → Except BinError (Dict α)) (lang : Language)
    (bytes : List Nat) (d : Dict α)
    (h : Load.from_reader decode lang bytes = .ok d) : d.language = lang := by
  unfold Load.from_reader at h
  cases hD : deserialize_from 5000000 decode bytes with
  | error e => rw [hD] at h; exact absurd h (by simp)
  | ok dict =>
      rw [hD] at h
      by_cases hl : dict.language = lang
      · have hd : dict = d := by simpa [hl] using h
        rw [← hd]; exact hl
      · simp [hl] at h

/-- C1: whenever the validating entry points `from_reader` or `from_path`
return `Ok dict`, the dictionary's `language` field equals the requested
language, for every codec behaviour, file system, input source and path. -/
theorem c1_validated_entry_points_return_requested_language {α : Type}
    (decode : List Nat → Except BinError (Dict α))
    (fs : String → Except IoError (List Nat)) (lang : Language)
    (bytes : List Nat) (path : String) (d : Dict α)
    (h : Load.from_reader decode lang bytes = .ok d ∨
         Load.from_path fs decode lang path = .ok d) :
    d.language = lang := by
  rcases h with h | h
  · exact from_reader_ok_language decode lang bytes d h
  · unfold Load.from_path at h
    cases hF : fs path with
    | error e => rw [hF] at h; exact absurd h (by simp)
    | ok file =>
        rw [hF] at h
        exact from_reader_ok_language decode lang file d h

/-- C1 witness: the theorem applied to the concrete codec and file system
at closed inputs, through both entry points. -/
theorem c1_witness :
    (⟨Language.French, 0⟩ : Dict Nat).language = Language.French ∧
    (⟨Language.EnglishUS, 0⟩ : Dict Nat).language = Language.EnglishUS :=
  ⟨c1_validated_entry_points_return_requested_language sampleDecode sampleFs
      Language.French [1] "/nonexistent/path" ⟨Language.French, 0⟩
      (Or.inl rfl),
   c1_validated_entry_points_return_requested_language sampleDecode sampleFs
      Language.EnglishUS [] "/dictionaries/en-us.bincode"
      ⟨Language.EnglishUS, 0⟩ (Or.inr rfl)⟩

/-- C2: a stream that decodes (within the ceiling) to a well-formed
dictionary tagged `L1`, requested as `L2 ≠ L1`, makes `from_reader` fail
with `LanguageMismatch` whose `expected` field is the request `L2` and
whose `found` field is the decoded tag `L1`; no dictionary is returned. -/
theorem c2_language_mismatch_reported {α : Type}
    (decode : List Nat → Except BinError (Dict α)) (bytes : List Nat)
    (d : Dict α) (L1 L2 : Language)
    (hdec : deserialize_from 5000000 decode bytes = .ok d)
    (htag : d.language = L1) (hne : L1 ≠ L2) :
    Load.from_reader decode L2 bytes =
      .error (.LanguageMismatch L2 L1) := by
  unfold Load.from_reader
  rw [hdec]
  simp [htag, hne]

/-- C2 witness: a one-byte stream decoding to a French dictionary,
requested as US English, yields the mismatch error with `expected` the
request and `found` the decoded tag. -/
theorem c2_witness :
    Load.from_reader sampleDecode Language.EnglishUS [1] =
      .error (Error.LanguageMismatch Language.EnglishUS Language.French) :=
  c2_language_mismatch_reported sampleDecode [1] ⟨Language.French, 0⟩
    Language.French Language.EnglishUS rfl rfl (by decide)

/-- C3 counterexample: `from_embedded` (load.rs lines 119-124) performs no
post-decode language validation.  With a resource table whose entry named
for US English holds bytes decoding to a French dictionary, the `Standard`
instance of `from_embedded` returns that dictionary as `Ok`, its language
differing from the request, while `from_reader` on the very same source
bytes fails with `LanguageMismatch` — so `from_embedded` neither runs the
same validation nor is equivalent to `from_reader`, refuting the claim. -/
theorem c3_counterexample :
    Standard.from_embedded corruptTable sampleDecode Language.EnglishUS =
        .ok (⟨Language.French, 0⟩ : Dict Nat) ∧
    (⟨Language.French, 0⟩ : Dict Nat).language ≠ Language.EnglishUS ∧
    Load.from_reader sampleDecode Language.EnglishUS [1] =
        .error (Error.LanguageMismatch Language.EnglishUS Language.French) :=
  ⟨rfl, by decide, rfl⟩

/-- C3 (amended): `from_embedded` performs no post-decode language
validation and returns whatever the embedded bytes decode to; whenever the
matching entry's bytes decode to a dictionary whose language equals the
requested language and lie within the stream path's size ceiling — as they
do for a correct compiled-in table — `from_embedded` returns that
dictionary and agrees with loading the same source bytes via
`from_reader`. -/
theorem c3_embedded_agrees_on_correct_table {α : Type}
    (table : String → Option (List Nat))
    (decode : List Nat → Except BinError (Dict α)) (suffix : String)
    (lang : Language) (bytes : List Nat) (d : Dict α)
    (hres : table (lang.code ++ "." ++ suffix ++ ".bincode") = some bytes)
    (hdec : decode bytes = .ok d) (hlang : d.language = lang)
    (hsize : bytes.length ≤ 5000000) :
    Load.from_embedded table decode suffix lang = .ok d ∧
    Load.from_reader decode lang bytes = .ok d := by
  constructor
  · unfold Load.from_embedded retrieve_resource
    rw [hres]
    simp [hdec]
  · unfold Load.from_reader deserialize_from
    rw [if_neg (by omega), hdec]
    simp [hlang]

/-- C3 witness: with the well-formed table, the US English standard entry
loads identically through the embedded and the stream paths. -/
theorem c3_witness :
    Load.from_embedded sampleTable sampleDecode "standard"
        Language.EnglishUS = .ok (⟨Language.EnglishUS, 0⟩ : Dict Nat) ∧
    Load.from_reader sampleDecode Language.EnglishUS [0] =
        .ok (⟨Language.EnglishUS, 0⟩ : Dict Nat) :=
  c3_embedded_agrees_on_correct_table sampleTable sampleDecode "standard"
    Language.EnglishUS [0] ⟨Language.EnglishUS, 0⟩ rfl rfl rfl (by decide)

/-- C4: `any_from_reader` never produces a `LanguageMismatch` error, and
any record that decodes successfully (within the ceiling) is returned as
`Ok` unchanged, whatever its language tag — the tag is never inspected. -/
theorem c4_any_from_reader_ignores_language {α : Type}
    (decode : List Nat → Except BinError (Dict α)) (bytes : List Nat) :
    (∀ e f, Load.any_from_reader decode bytes ≠
        .error (.LanguageMismatch e f)) ∧
    (∀ d : Dict α, deserialize_from 5000000 decode bytes = .ok d →
        Load.any_from_reader decode bytes = .ok d) := by
  constructor
  · intro e f
    unfold Load.any_from_reader
    cases deserialize_from 5000000 decode bytes with
    | error e => simp
    | ok dict => simp
  · intro d hd
    unfold Load.any_from_reader
    rw [hd]

/-- C4 witness: a stream decoding to a French dictionary passes through
`any_from_reader` untouched, and in particular is no mismatch error. -/
theorem c4_witness :
    Load.any_from_reader sampleDecode [1] ≠
        .error (Error.LanguageMismatch Language.EnglishUS Language.French) ∧
    Load.any_from_reader sampleDecode [1] =
        .ok (⟨Language.French, 0⟩ : Dict Nat) :=
  ⟨(c4_any_from_reader_ignores_language sampleDecode [1]).1
      Language.EnglishUS Language.French,
   (c4_any_from_reader_ignores_language sampleDecode [1]).2
      ⟨Language.French, 0⟩ rfl⟩

/-- C5: `from_reader` coincides, on every codec behaviour, requested
language and input, with the specification's `decode_checked`: first
`any_from_reader`, then the Validator — so a decode failure surfaces as
`Deserialization` before any language comparison, and a decoded record is
returned unchanged exactly when its language matches. -/
theorem c5_from_reader_is_decode_then_validate {α : Type}
    (decode : List Nat → Except BinError (Dict α)) (lang : Language)
    (bytes : List Nat) :
    Load.from_reader decode lang bytes =
      decode_checked_spec decode lang bytes := by
  unfold Load.from_reader decode_checked_spec Load.any_from_reader validate
  cases deserialize_from 5000000 decode bytes with
  | error e => rfl
  | ok dict =>
      by_cases h : dict.language = lang
      · simp [h]
      · simp [h, Ne.symm h]

/-- Helper: the oversized sample input is one byte longer than the
ceiling. -/
theorem bigBytes_length : bigBytes.length = 5000001 := by
  rw [bigBytes, List.length_cons, List.length_replicate]

/-- C6: both reader-based entry points configure the fixed 5,000,000-byte
ceiling, and an input exceeding it is reported exactly as a
`Deserialization` error wrapping the codec's size-limit failure — no other
error variant is ever produced for oversized input, whatever the codec
would have decoded. -/
theorem c6_size_ceiling_reports_deserialization {α : Type}
    (decode : List Nat → Except BinError (Dict α)) (lang : Language)
    (bytes : List Nat) (h : 5000000 < bytes.length) :
    Load.from_reader decode lang bytes =
        .error (.Deserialization .SizeLimit) ∧
    Load.any_from_reader decode bytes =
        .error (.Deserialization .SizeLimit) := by
  unfold Load.from_reader Load.any_from_reader deserialize_from
  rw [if_pos h]
  exact ⟨rfl, rfl⟩

/-- C6 witness: an input one byte past the ceiling is rejected by both
entry points with a `Deserialization` error, although the concrete codec
accepts its first byte. -/
theorem c6_witness :
    Load.from_reader sampleDecode Language.EnglishUS bigBytes =
        .error (Error.Deserialization BinError.SizeLimit) ∧
    Load.any_from_reader sampleDecode bigBytes =
        .error (Error.Deserialization BinError.SizeLimit) :=
  c6_size_ceiling_reports_deserialization sampleDecode Language.EnglishUS
    bigBytes (by rw [bigBytes_length]; omega)

/-- C7: `from_path` opens the file at the path and hands its contents to
`from_reader` under the same requested language; when the open fails, the
underlying failure is returned wrapped in the `Io` error kind. -/
theorem c7_from_path_opens_and_delegates {α : Type}
    (fs : String → Except IoError (List Nat))
    (decode : List Nat → Except BinError (Dict α)) (lang : Language)
    (path : String) :
    (∀ e, fs path = .error e →
        Load.from_path fs decode lang path = .error (.Io e)) ∧
    (∀ file, fs path = .ok file →
        Load.from_path fs decode lang path =
          Load.from_reader decode lang file) := by
  constructor
  · intro e he
    unfold Load.from_path
    rw [he]
  · intro file hf
    unfold Load.from_path
    rw [hf]

/-- C7 witness: a nonexistent path fails with the wrapped open error, and
the readable path loads exactly as `from_reader` on the file's bytes. -/
theorem c7_witness :
    Load.from_path sampleFs sampleDecode Language.EnglishUS
        "/nonexistent/path" = .error (Error.Io IoError.NotFound) ∧
    Load.from_path sampleFs sampleDecode Language.EnglishUS
        "/dictionaries/en-us.bincode" =
      Load.from_reader sampleDecode Language.EnglishUS [0] :=
  ⟨(c7_from_path_opens_and_delegates sampleFs sampleDecode
      Language.EnglishUS "/nonexistent/path").1 IoError.NotFound rfl,
   (c7_from_path_opens_and_delegates sampleFs sampleDecode
      Language.EnglishUS "/dictionaries/en-us.bincode").2 [0] rfl⟩

/-- Helper: `from_embedded` fails with `Resource` exactly when the table
has no entry under the computed name, whatever the codec then does. -/
theorem from_embedded_resource_error_iff {α : Type}
    (table : String → Option (List Nat))
    (decode : List Nat → Except BinError (Dict α)) (suffix : String)
    (lang : Language) :
    Load.from_embedded table decode suffix lang = .error .Resource ↔
      table (lang.code ++ "." ++ suffix ++ ".bincode") = none := by
  unfold Load.from_embedded retrieve_resource
  cases hT : table (lang.code ++ "." ++ suffix ++ ".bincode") with
  | none => simp
  | some data =>
      cases hd : decode data with
      | error e => simp [hd]
      | ok dict => simp [hd]

/-- C8: the embedded entry points look up the resource by the exact name
`{language-short-code}.{kind}.bincode` — kind `standard` for the `Standard`
instance and `extended` for the `Extended` one — and fail with the
detail-free `Resource` error precisely when the table has no entry under
that exact name, for every table, codec behaviour and language. -/
theorem c8_resource_naming_and_lookup {α : Type}
    (table : String → Option (List Nat))
    (decode : List Nat → Except BinError (Dict α)) (lang : Language) :
    (Standard.from_embedded table decode lang = .error .Resource ↔
        table (lang.code ++ "." ++ "standard" ++ ".bincode") = none) ∧
    (Extended.from_embedded table decode lang = .error .Resource ↔
        table (lang.code ++ "." ++ "extended" ++ ".bincode") = none) :=
  ⟨from_embedded_resource_error_iff table decode "standard" lang,
   from_embedded_resource_error_iff table decode "extended" lang⟩

/-- C9: `from_embedded` decodes the embedded slice with the bare codec and
enforces no size ceiling, so an embedded payload past the 5,000,000-byte
bound, which the stream path rejects as a `Deserialization` failure, still
loads successfully through the embedded path. -/
theorem c9_embedded_path_has_no_size_ceiling {α : Type}
    (table : String → Option (List Nat))
    (decode : List Nat → Except BinError (Dict α)) (suffix : String)
    (lang : Language) (bytes : List Nat) (d : Dict α)
    (hres : table (lang.code ++ "." ++ suffix ++ ".bincode") = some bytes)
    (hdec : decode bytes = .ok d) (hbig : 5000000 < bytes.length) :
    Load.from_embedded table decode suffix lang = .ok d ∧
    Load.any_from_reader decode bytes =
        .error (.Deserialization .SizeLimit) := by
  constructor
  · unfold Load.from_embedded retrieve_resource
    rw [hres]
    simp [hdec]
  · unfold Load.any_from_reader deserialize_from
    rw [if_pos hbig]

/-- C9 witness: the 5,000,001-byte payload loads through the embedded path
but is rejected by the stream path. -/
theorem c9_witness :
    Load.from_embedded bigTable sampleDecode "standard" Language.EnglishUS =
        .ok (⟨Language.EnglishUS, 0⟩ : Dict Nat) ∧
    Load.any_from_reader sampleDecode bigBytes =
        .error (Error.Deserialization BinError.SizeLimit) :=
  c9_embedded_path_has_no_size_ceiling bigTable sampleDecode "standard"
    Language.EnglishUS bigBytes ⟨Language.EnglishUS, 0⟩ rfl
    (by rw [bigBytes]; exact rfl) (by rw [bigBytes_length]; omega)

/-- C10: every load operation is a function of its inputs — equal requested
language and equal input bytes give equal results — and repeated successful
calls return structurally equal dictionaries; resource retrieval is
likewise deterministic in the (language, kind) pair. -/
theorem c10_loading_is_deterministic {α : Type}
    (decode : List Nat → Except BinError (Dict α))
    (fs : String → Except IoError (List Nat))
    (table : String → Option (List Nat)) (lang : Language) (path : String)
    (bytes : List Nat) (suffix : String) (d₁ d₂ : Dict α) :
    Load.from_reader decode lang bytes =
        Load.from_reader decode lang bytes ∧
    Load.any_from_reader decode bytes =
        Load.any_from_reader decode bytes ∧
    Load.from_path fs decode lang path =
        Load.from_path fs decode lang path ∧
    Load.from_embedded table decode suffix lang =
        Load.from_embedded table decode suffix lang ∧
    retrieve_resource table lang.code suffix =
        retrieve_resource table lang.code suffix ∧
    (Load.from_reader decode lang bytes = .ok d₁ →
        Load.from_reader decode lang bytes = .ok d₂ → d₁ = d₂) ∧
    (Load.any_from_reader decode bytes = .ok d₁ →
        Load.any_from_reader decode bytes = .ok d₂ → d₁ = d₂) ∧
    (Load.from_path fs decode lang path = .ok d₁ →
        Load.from_path fs decode lang path = .ok d₂ → d₁ = d₂) ∧
    (Load.from_embedded table decode suffix lang = .ok d₁ →
        Load.from_embedded table decode suffix lang = .ok d₂ → d₁ = d₂) := by
  refine ⟨rfl, rfl, rfl, rfl, rfl, ?_, ?_, ?_, ?_⟩ <;>
  · intro h₁ h₂
    rw [h₁] at h₂
    exact (Except.ok.injEq _ _ ▸ h₂ : d₁ = d₂)

/-- C10 witness: two identical loads of the same one-byte stream agree and
yield structurally equal dictionaries. -/
theorem c10_witness :
    Load.from_reader sampleDecode Language.EnglishUS [0] =
        Load.from_reader sampleDecode Language.EnglishUS [0] ∧
    (⟨Language.EnglishUS, 0⟩ : Dict Nat) = ⟨Language.EnglishUS, 0⟩ :=
  ⟨(c10_loading_is_deterministic sampleDecode sampleFs sampleTable
      Language.EnglishUS "/dictionaries/en-us.bincode" [0] "standard"
      ⟨Language.EnglishUS, 0⟩ ⟨Language.EnglishUS, 0⟩).1,
   (c10_loading_is_deterministic sampleDecode sampleFs sampleTable
      Language.EnglishUS "/dictionaries/en-us.bincode" [0] "standard"
      ⟨Language.EnglishUS, 0⟩
      ⟨Language.EnglishUS, 0⟩).2.2.2.2.2.1 rfl rfl⟩

end Hyphenation
